import Mathlib

/-!
Verification model of `src/ThreadPool.h` (nbsdx::concurrent::ThreadPool).

The pool is embedded as a small-step interleaving transition system.  Jobs are
opaque callables in the source (`typedef std::function<auto (void)->void> Job`);
the model identifies a job by a numeric label, since only identity and arrival
order are observable to the pool.  The shared state of the template class
(lines 38-48 of the source) becomes a `PoolState` record:

  * `queue`     — `list<Job> queue`
  * `jobs_left` — `atomic_int jobs_left` (a mathematical integer; the source
                  only ever increments and decrements it by one)
  * `bailout`   — `atomic_bool bailout`
  * `finished`  — `atomic_bool finished`
  * `workers`   — one control-flow phase per worker thread running `Task()`
  * `main`      — the control-flow phase of the controller thread inside
                  `WaitAll` / `JoinAll`
  * `executed`  — history of the real (submitted) jobs whose bodies have run,
                  in completion order; the synthetic no-op injected by
                  `next_job` under bailout is not a submitted job and is not
                  recorded here.

Atomicity of each transition mirrors the mutexes of the source: `next_job`
holds `job_available_mutex` from entry to exit (releasing it only while parked
in `job_available_var.wait`), and every queue access is under `queue_mutex`,
so queue inspection plus pop is one atomic step, and the wake-up from `wait`
together with the pop (or the no-op injection) is one atomic step whose guard
is the wait predicate `JobsRemaining() || bailout` combined with the
`if( !bailout )` branch that follows it.
-/

set_option maxHeartbeats 1000000

namespace ThreadPoolModel

/-- A job, identified by a numeric label; the pool treats job bodies as opaque. -/
abbrev Job := Nat

/-- Control-flow phase of one worker thread executing `ThreadPool::Task`
(source lines 54-60) and `ThreadPool::next_job` (source lines 66-94).
`holding oj` is the point where `next_job` has returned `oj` but the
`--jobs_left` in `Task` has not happened yet; `oj = none` is the synthetic
no-op `res = []{}` injected under bailout, `oj = some j` a popped real job. -/
inductive WPhase where
  | loopTop
  | fetching
  | blocked
  | holding (oj : Option Job)
  | stopped
  deriving DecidableEq, Repr

/-- Control-flow phase of the controller thread: `running` outside the pool's
blocking calls, `waitingDrain fromJoin` parked in `WaitAll` (source lines
173-179, `fromJoin = true` when entered from `JoinAll`), `preBailout` between
`WaitAll` returning inside `JoinAll` and the `bailout = true` store (source
line 158), `joining` in the thread-join loop (source lines 161-163). -/
inductive MPhase where
  | running
  | waitingDrain (fromJoin : Bool)
  | preBailout
  | joining
  deriving DecidableEq, Repr

/-- The shared state of one `ThreadPool` object together with the control
points of its threads. -/
structure PoolState where
  queue : List Job
  jobs_left : Int
  bailout : Bool
  finished : Bool
  workers : List WPhase
  main : MPhase
  executed : List Job
  deriving DecidableEq, Repr

/-- State after `ThreadPool::AddJob job` (source lines 133-138): under
`queue_mutex`, `queue.emplace_back( job ); ++jobs_left;
job_available_var.notify_one();`.  Nothing else is touched. -/
def submitState (s : PoolState) (j : Job) : PoolState :=
  { s with queue := s.queue ++ [j], jobs_left := s.jobs_left + 1 }

/-- State with worker `i` moved to phase `w` and nothing else changed. -/
def setWorker (s : PoolState) (i : Nat) (w : WPhase) : PoolState :=
  { s with workers := s.workers.set i w }

/-- State after worker `i` pops the front of a non-empty queue inside
`next_job` (source lines 72-75 or 81-84): `res = queue.front();
queue.pop_front();`. -/
def fetchPopState (s : PoolState) (i : Nat) (j : Job) (rest : List Job) : PoolState :=
  { s with queue := rest, workers := s.workers.set i (.holding (some j)) }

/-- State after worker `i`, woken under bailout, injects the synthetic no-op
(source lines 85-88): `res = []{}; ++jobs_left;`. -/
def wakeInjectState (s : PoolState) (i : Nat) : PoolState :=
  { s with jobs_left := s.jobs_left + 1, workers := s.workers.set i (.holding none) }

/-- State after worker `i` runs its fetched `oj` and performs the unconditional
`--jobs_left; wait_var.notify_one();` of `Task` (source lines 56-58).  A real
job is appended to the execution history; the synthetic no-op is not. -/
def finishState (s : PoolState) (i : Nat) (oj : Option Job) : PoolState :=
  { s with executed := s.executed ++ oj.toList,
           jobs_left := s.jobs_left - 1,
           workers := s.workers.set i .loopTop }

/-- State with only the controller phase changed. -/
def setMainPhase (s : PoolState) (m : MPhase) : PoolState :=
  { s with main := m }

/-- State after `bailout = true; job_available_var.notify_all();` in `JoinAll`
(source lines 158-159); the broadcast itself has no state effect, it enables
the wake transitions of blocked workers. -/
def setBailoutState (s : PoolState) : PoolState :=
  { s with bailout := true, main := .joining }

/-- State after the join loop of `JoinAll` has joined every worker and
`finished = true` is stored (source lines 161-164). -/
def joinExitState (s : PoolState) : PoolState :=
  { s with finished := true, main := .running }

/-- Return value of `ThreadPool::JobsRemaining` (source lines 123-126):
`lock_guard<mutex> guard( queue_mutex ); return queue.size();` — the length of
the queue, an `unsigned`. -/
def jobsRemaining (s : PoolState) : Nat :=
  s.queue.length

/-- Return value of `ThreadPool::Size` (source lines 116-118): the template
constant `ThreadCount`, which in the model is the fixed number of worker
phases. -/
def poolSize (s : PoolState) : Nat :=
  s.workers.length

/-- Every worker's `Task` has returned (its thread is joinable and terminated). -/
def AllStopped (s : PoolState) : Prop :=
  ∀ w ∈ s.workers, w = WPhase.stopped

instance (s : PoolState) : Decidable (AllStopped s) :=
  inferInstanceAs (Decidable (∀ w ∈ s.workers, w = WPhase.stopped))

/-- One interleaving step of the pool: an action of the controller thread, of
one worker thread, or an `AddJob` call (which any thread may make).  Guards
are the branch conditions of the source at that control point. -/
inductive Step : PoolState → PoolState → Prop where
  /-- `AddJob` (source lines 133-138) has no guard: it never blocks and never
  consults `bailout` or `finished`. -/
  | submit (s : PoolState) (j : Job) : Step s (submitState s j)
  /-- `while( !bailout )` at the top of `Task` observes `bailout` true: the
  loop exits and the thread function returns (source line 55). -/
  | loopExit (s : PoolState) (i : Nat) :
      s.workers.get? i = some .loopTop → s.bailout = true →
      Step s (setWorker s i .stopped)
  /-- `while( !bailout )` observes `bailout` false: the worker enters
  `next_job` (source lines 55-56). -/
  | loopEnter (s : PoolState) (i : Nat) :
      s.workers.get? i = some .loopTop → s.bailout = false →
      Step s (setWorker s i .fetching)
  /-- Inside `next_job` with `queue_mutex` held, `!queue.empty()`: pop the
  front (source lines 72-75).  This branch does not consult `bailout`. -/
  | fetchPop (s : PoolState) (i : Nat) (j : Job) (rest : List Job) :
      s.workers.get? i = some .fetching → s.queue = j :: rest →
      Step s (fetchPopState s i j rest)
  /-- Inside `next_job`, the queue is empty: release `queue_mutex` and park in
  `job_available_var.wait` (source lines 76-78). -/
  | fetchBlock (s : PoolState) (i : Nat) :
      s.workers.get? i = some .fetching → s.queue = [] →
      Step s (setWorker s i .blocked)
  /-- A parked worker whose wait predicate `(JobsRemaining()) || bailout`
  holds wakes with `bailout` still false, so the queue is non-empty: pop the
  front (source lines 78-84). -/
  | wakePop (s : PoolState) (i : Nat) (j : Job) (rest : List Job) :
      s.workers.get? i = some .blocked → s.bailout = false → s.queue = j :: rest →
      Step s (fetchPopState s i j rest)
  /-- A parked worker wakes and observes `bailout` true: inject the synthetic
  no-op and `++jobs_left` (source lines 85-88), whatever the queue holds. -/
  | wakeInject (s : PoolState) (i : Nat) :
      s.workers.get? i = some .blocked → s.bailout = true →
      Step s (wakeInjectState s i)
  /-- `next_job()()` runs the fetched job body, then `--jobs_left;
  wait_var.notify_one();` (source lines 56-58). -/
  | finish (s : PoolState) (i : Nat) (oj : Option Job) :
      s.workers.get? i = some (.holding oj) →
      Step s (finishState s i oj)
  /-- `JoinAll` called with `finished` already true: the whole body is skipped
  by `if( !finished )` (source line 151) and the call returns at once, the
  state unchanged, whatever `WaitForAll` was passed. -/
  | joinNoop (s : PoolState) (waitForAll : Bool) :
      s.main = .running → s.finished = true → Step s s
  /-- A direct `WaitAll` call parks the controller on `wait_var` (source lines
  173-179). -/
  | callWaitAll (s : PoolState) :
      s.main = .running → Step s (setMainPhase s (.waitingDrain false))
  /-- `JoinAll( true )` with `finished` false: first perform `WaitAll()`
  (source lines 151-154). -/
  | callJoinAllTrue (s : PoolState) :
      s.main = .running → s.finished = false →
      Step s (setMainPhase s (.waitingDrain true))
  /-- `JoinAll( false )` with `finished` false: skip `WaitAll` and proceed to
  the `bailout = true` store (source lines 151-158). -/
  | callJoinAllFalse (s : PoolState) :
      s.main = .running → s.finished = false →
      Step s (setMainPhase s .preBailout)
  /-- `WaitAll` returns: either `jobs_left > 0` was false on entry (source
  line 174) or the wait predicate `jobs_left == 0` fired (source line 176).
  Both require `jobs_left ≤ 0` at that moment. -/
  | drainExit (s : PoolState) (fromJoin : Bool) :
      s.main = .waitingDrain fromJoin → s.jobs_left ≤ 0 →
      Step s (setMainPhase s (if fromJoin then .preBailout else .running))
  /-- `bailout = true; job_available_var.notify_all();` (source lines
  158-159), then the controller enters the join loop. -/
  | raiseBailout (s : PoolState) :
      s.main = .preBailout → Step s (setBailoutState s)
  /-- The join loop (source lines 161-163) returns once every worker's thread
  function has terminated, and `finished = true` is stored (source line 164). -/
  | joinExit (s : PoolState) :
      s.main = .joining → AllStopped s →
      Step s (joinExitState s)

/-- State right after the constructor (source lines 97-104): zero counter,
both flags false, `n` workers spawned at the top of their loop, empty queue. -/
def initState (n : Nat) : PoolState :=
  { queue := [], jobs_left := 0, bailout := false, finished := false,
    workers := List.replicate n .loopTop, main := .running, executed := [] }

/-- States the pool can be in after construction with `n` workers. -/
def Reachable (n : Nat) (s : PoolState) : Prop :=
  Relation.ReflTransGen Step (initState n) s

/-- Worker phases that hold a fetched unit of work whose `--jobs_left` is
still pending. -/
def isHolding : WPhase → Bool
  | .holding _ => true
  | _ => false

/-- Number of workers between a successful fetch (pop or injection) and the
subsequent decrement of `jobs_left`. -/
def holdingCount (ws : List WPhase) : Nat :=
  ws.countP isHolding

/-- The accounting invariant of `jobs_left`: it always equals the number of
queued-but-not-dequeued jobs plus the number of fetched-but-not-yet-decremented
units of work. -/
def Inv (s : PoolState) : Prop :=
  s.jobs_left = (s.queue.length : Int) + (holdingCount s.workers : Int)

/-- Events of one `JoinAll` call, in program order (source lines 150-166). -/
inductive JEvent where
  | waitAll
  | raiseFlag
  | broadcast
  | joinThreads
  | markFinalized
  deriving DecidableEq, Repr

/-- Statement-by-statement transcription of the body of `JoinAll` (source
lines 150-166): nothing when `finished` is already true; otherwise an optional
`WaitAll()` (when `WaitForAll`), then `bailout = true`, then
`job_available_var.notify_all()`, then the join loop, then `finished = true`. -/
def joinAllEvents (finished waitForAll : Bool) : List JEvent :=
  if finished then []
  else (if waitForAll then [JEvent.waitAll] else []) ++
    [JEvent.raiseFlag, JEvent.broadcast, JEvent.joinThreads, JEvent.markFinalized]

/-- Queue effect of `AddJob` (source line 135): `queue.emplace_back( job )`. -/
def addJobQueue (q : List Job) (j : Job) : List Job :=
  q ++ [j]

/-- Order in which `next_job`'s pop (source lines 73-74, `res = queue.front();
queue.pop_front();`) hands out the jobs of a queue when repeated until empty:
the head first, then the rest. -/
def drainOrder : List Job → List Job
  | [] => []
  | j :: rest => j :: drainOrder rest

/-- Reachable state of a one-worker pool in which the single submitted job
(label 7) has been dequeued and is executing: the queue is empty again while
`jobs_left` is still 1. -/
def execOneState : PoolState :=
  fetchPopState (setWorker (submitState (initState 1) 7) 0 .fetching) 0 7 []

/-- Reachable state of a one-worker pool after this history: the worker parks
on the empty queue, job 5 is submitted, and `JoinAll( false )` runs to
completion (bailout raised, worker wakes, injects the no-op, runs it, exits,
controller joins it and marks `finished`).  Job 5 is still in the queue. -/
def droppedJobState : PoolState :=
  joinExitState (setWorker (finishState (wakeInjectState (setBailoutState
    (setMainPhase (submitState (setWorker (setWorker (initState 1) 0 .fetching)
      0 .blocked) 5) .preBailout)) 0) 0 none) 0 .stopped)

/-- A finalized idle pool: its one worker has exited and been joined. -/
def finalizedIdleState : PoolState :=
  { queue := [], jobs_left := 0, bailout := true, finished := true,
    workers := [.stopped], main := .running, executed := [] }

/-- A fresh one-worker pool whose worker has parked on the empty queue. -/
def blockedWorkerState : PoolState :=
  setWorker (setWorker (initState 1) 0 .fetching) 0 .blocked

/-- A one-worker pool mid-shutdown: bailout raised, the controller in the join
loop, the worker still parked on the work-available condition. -/
def parkedBailoutState : PoolState :=
  { queue := [], jobs_left := 0, bailout := true, finished := false,
    workers := [.blocked], main := .joining, executed := [] }

/-- A drained pool whose controller is parked inside the `WaitAll` performed
by `JoinAll( true )`, with the counter at zero. -/
def drainingState : PoolState :=
  { queue := [], jobs_left := 0, bailout := false, finished := false,
    workers := [], main := .waitingDrain true, executed := [] }

lemma countP_set (p : WPhase → Bool) :
    ∀ (l : List WPhase) (i : Nat) (a b : WPhase), l.get? i = some a →
      (l.set i b).countP p + (if p a then 1 else 0)
        = l.countP p + (if p b then 1 else 0) := by
  intro l
  induction l with
  | nil => intro i a b h; simp at h
  | cons hd tl ih =>
    intro i a b h
    cases i with
    | zero =>
      simp only [List.get?] at h
      cases h
      simp [List.set, List.countP_cons]
      omega
    | succ k =>
      simp only [List.get?] at h
      simp only [List.set, List.countP_cons]
      have := ih k a b h
      omega

lemma holdingCount_set (ws : List WPhase) (i : Nat) (a b : WPhase)
    (h : ws.get? i = some a) :
    holdingCount (ws.set i b) + (if isHolding a then 1 else 0)
      = holdingCount ws + (if isHolding b then 1 else 0) :=
  countP_set isHolding ws i a b h

lemma inv_init (n : Nat) : Inv (initState n) := by
  have hz : holdingCount (List.replicate n WPhase.loopTop) = 0 := by
    rw [holdingCount, List.countP_eq_zero]
    intro a ha
    simp [List.eq_of_mem_replicate ha, isHolding]
  simp [Inv, initState, hz]

lemma inv_step {s s' : PoolState} (hs : Step s s') (h : Inv s) : Inv s' := by
  cases hs with
  | submit j =>
    simp only [Inv, submitState] at *
    simp [List.length_append]
    omega
  | loopExit i hw _ =>
    have hc := holdingCount_set s.workers i _ .stopped hw
    simp only [Inv, setWorker] at *
    simp [isHolding] at hc
    omega
  | loopEnter i hw _ =>
    have hc := holdingCount_set s.workers i _ .fetching hw
    simp only [Inv, setWorker] at *
    simp [isHolding] at hc
    omega
  | fetchPop i j rest hw hq =>
    have hc := holdingCount_set s.workers i _ (.holding (some j)) hw
    simp only [Inv, fetchPopState] at *
    simp [isHolding] at hc
    rw [hq] at h
    simp at h
    omega
  | fetchBlock i hw _ =>
    have hc := holdingCount_set s.workers i _ .blocked hw
    simp only [Inv, setWorker] at *
    simp [isHolding] at hc
    omega
  | wakePop i j rest hw _ hq =>
    have hc := holdingCount_set s.workers i _ (.holding (some j)) hw
    simp only [Inv, fetchPopState] at *
    simp [isHolding] at hc
    rw [hq] at h
    simp at h
    omega
  | wakeInject i hw _ =>
    have hc := holdingCount_set s.workers i _ (.holding none) hw
    simp only [Inv, wakeInjectState] at *
    simp [isHolding] at hc
    omega
  | finish i oj hw =>
    have hc := holdingCount_set s.workers i _ .loopTop hw
    simp only [Inv, finishState] at *
    simp [isHolding] at hc
    omega
  | joinNoop w _ _ => exact h
  | callWaitAll _ => exact h
  | callJoinAllTrue _ _ => exact h
  | callJoinAllFalse _ _ => exact h
  | drainExit b _ _ => exact h
  | raiseBailout _ => exact h
  | joinExit _ _ => exact h

lemma inv_reachable {n : Nat} {s : PoolState} (h : Reachable n s) : Inv s := by
  induction h with
  | refl => exact inv_init n
  | tail _ hs ih => exact inv_step hs ih

lemma workers_length_step {s s' : PoolState} (hs : Step s s') :
    s'.workers.length = s.workers.length := by
  cases hs <;>
    simp [submitState, setWorker, fetchPopState, wakeInjectState, finishState,
      setMainPhase, setBailoutState, joinExitState]

lemma workers_length_reachable {n : Nat} {s : PoolState} (h : Reachable n s) :
    s.workers.length = n := by
  induction h with
  | refl => simp [initState]
  | tail _ hs ih => rw [workers_length_step hs, ih]

lemma allStopped_holdingCount {s : PoolState} (h : AllStopped s) :
    holdingCount s.workers = 0 := by
  rw [holdingCount, List.countP_eq_zero]
  intro a ha
  rw [h a ha]
  simp [isHolding]

lemma allStopped_step {s s' : PoolState} (hs : Step s s') (h : AllStopped s) :
    AllStopped s' ∧ s'.executed = s.executed := by
  cases hs with
  | submit j => exact ⟨fun w hw => h w hw, rfl⟩
  | loopExit i hw _ =>
    exact absurd (h _ (List.get?_mem hw)) (by simp)
  | loopEnter i hw _ =>
    exact absurd (h _ (List.get?_mem hw)) (by simp)
  | fetchPop i j rest hw _ =>
    exact absurd (h _ (List.get?_mem hw)) (by simp)
  | fetchBlock i hw _ =>
    exact absurd (h _ (List.get?_mem hw)) (by simp)
  | wakePop i j rest hw _ _ =>
    exact absurd (h _ (List.get?_mem hw)) (by simp)
  | wakeInject i hw _ =>
    exact absurd (h _ (List.get?_mem hw)) (by simp)
  | finish i oj hw =>
    exact absurd (h _ (List.get?_mem hw)) (by simp)
  | joinNoop w _ _ => exact ⟨h, rfl⟩
  | callWaitAll _ => exact ⟨fun w hw => h w hw, rfl⟩
  | callJoinAllTrue _ _ => exact ⟨fun w hw => h w hw, rfl⟩
  | callJoinAllFalse _ _ => exact ⟨fun w hw => h w hw, rfl⟩
  | drainExit b _ _ => exact ⟨fun w hw => h w hw, rfl⟩
  | raiseBailout _ => exact ⟨fun w hw => h w hw, rfl⟩
  | joinExit _ _ => exact ⟨fun w hw => h w hw, rfl⟩

lemma allStopped_frozen {s s' : PoolState}
    (h : Relation.ReflTransGen Step s s') (hstop : AllStopped s) :
    s'.executed = s.executed ∧ AllStopped s' := by
  induction h with
  | refl => exact ⟨rfl, hstop⟩
  | tail _ hs ih =>
    obtain ⟨hex, hst⟩ := ih
    obtain ⟨hst', hex'⟩ := allStopped_step hs hst
    exact ⟨hex'.trans hex, hst'⟩

lemma reachable_execOne : Reachable 1 execOneState := by
  have h1 : Step (initState 1) (submitState (initState 1) 7) :=
    Step.submit (initState 1) 7
  have h2 : Step (submitState (initState 1) 7)
      (setWorker (submitState (initState 1) 7) 0 .fetching) :=
    Step.loopEnter (submitState (initState 1) 7) 0 rfl rfl
  have h3 : Step (setWorker (submitState (initState 1) 7) 0 .fetching)
      execOneState :=
    Step.fetchPop (setWorker (submitState (initState 1) 7) 0 .fetching) 0 7 [] rfl rfl
  exact ((Relation.ReflTransGen.refl.tail h1).tail h2).tail h3

lemma reachable_dropped : Reachable 1 droppedJobState := by
  have h1 : Step (initState 1) (setWorker (initState 1) 0 .fetching) :=
    Step.loopEnter (initState 1) 0 rfl rfl
  have h2 : Step (setWorker (initState 1) 0 .fetching) blockedWorkerState :=
    Step.fetchBlock (setWorker (initState 1) 0 .fetching) 0 rfl rfl
  have h3 : Step blockedWorkerState (submitState blockedWorkerState 5) :=
    Step.submit blockedWorkerState 5
  have h4 : Step (submitState blockedWorkerState 5)
      (setMainPhase (submitState blockedWorkerState 5) .preBailout) :=
    Step.callJoinAllFalse (submitState blockedWorkerState 5) rfl rfl
  have h5 : Step (setMainPhase (submitState blockedWorkerState 5) .preBailout)
      (setBailoutState (setMainPhase (submitState blockedWorkerState 5) .preBailout)) :=
    Step.raiseBailout (setMainPhase (submitState blockedWorkerState 5) .preBailout) rfl
  have h6 : Step
      (setBailoutState (setMainPhase (submitState blockedWorkerState 5) .preBailout))
      (wakeInjectState
        (setBailoutState (setMainPhase (submitState blockedWorkerState 5) .preBailout)) 0) :=
    Step.wakeInject
      (setBailoutState (setMainPhase (submitState blockedWorkerState 5) .preBailout)) 0 rfl rfl
  have h7 : Step
      (wakeInjectState
        (setBailoutState (setMainPhase (submitState blockedWorkerState 5) .preBailout)) 0)
      (finishState
        (wakeInjectState
          (setBailoutState (setMainPhase (submitState blockedWorkerState 5) .preBailout)) 0)
        0 none) :=
    Step.finish
      (wakeInjectState
        (setBailoutState (setMainPhase (submitState blockedWorkerState 5) .preBailout)) 0)
      0 none rfl
  have h8 : Step
      (finishState
        (wakeInjectState
          (setBailoutState (setMainPhase (submitState blockedWorkerState 5) .preBailout)) 0)
        0 none)
      (setWorker
        (finishState
          (wakeInjectState
            (setBailoutState (setMainPhase (submitState blockedWorkerState 5) .preBailout)) 0)
          0 none) 0 .stopped) :=
    Step.loopExit
      (finishState
        (wakeInjectState
          (setBailoutState (setMainPhase (submitState blockedWorkerState 5) .preBailout)) 0)
        0 none) 0 rfl rfl
  have h9 : Step
      (setWorker
        (finishState
          (wakeInjectState
            (setBailoutState (setMainPhase (submitState blockedWorkerState 5) .preBailout)) 0)
          0 none) 0 .stopped)
      droppedJobState :=
    Step.joinExit
      (setWorker
        (finishState
          (wakeInjectState
            (setBailoutState (setMainPhase (submitState blockedWorkerState 5) .preBailout)) 0)
          0 none) 0 .stopped) rfl (by decide)
  exact ((((((((Relation.ReflTransGen.refl.tail h1).tail h2).tail h3).tail
    h4).tail h5).tail h6).tail h7).tail h8).tail h9

/-- C1 (counterexample): the claim that `pendingCount()` (the source's
`JobsRemaining`) returns the Pending Counter — (queued-but-not-dequeued) +
(dequeued-but-still-executing) — is false.  In the reachable one-worker state
where the single submitted job has been dequeued and is executing,
`JobsRemaining` returns `queue.size() = 0` while the counter `jobs_left` is 1
(one executing job). -/
theorem jobsRemaining_ne_pending_counter :
    Reachable 1 execOneState ∧
    execOneState.jobs_left = 1 ∧
    holdingCount execOneState.workers = 1 ∧
    jobsRemaining execOneState = 0 ∧
    ¬((jobsRemaining execOneState : Int) = execOneState.jobs_left) :=
  ⟨reachable_execOne, by decide, by decide, by decide, by decide⟩

/-- C1 (amended): `JobsRemaining` returns the queue length, i.e. only the
queued-but-not-dequeued jobs; in every reachable state it equals the Pending
Counter `jobs_left` minus the number of dequeued-but-not-yet-completed units
of work. -/
theorem jobsRemaining_eq_queued_only :
    ∀ (n : Nat) (s : PoolState), Reachable n s →
      jobsRemaining s = s.queue.length ∧
      (jobsRemaining s : Int) = s.jobs_left - (holdingCount s.workers : Int) := by
  intro n s h
  have hinv := inv_reachable h
  refine ⟨rfl, ?_⟩
  rw [jobsRemaining, hinv]
  ring

/-- Witness for C1 (amended) at the concrete reachable state `execOneState`. -/
theorem jobsRemaining_eq_queued_only_witness :
    jobsRemaining execOneState = execOneState.queue.length ∧
    (jobsRemaining execOneState : Int)
      = execOneState.jobs_left - (holdingCount execOneState.workers : Int) :=
  jobsRemaining_eq_queued_only 1 execOneState reachable_execOne

/-- C2: evaluation of the code at the failing scenario.  One worker parks on
the empty queue, job 5 is submitted, and `JoinAll( false )` runs to
completion.  Job 5 is discarded and never runs (`executed = []`), as the
claim says — but afterwards the job is still sitting in the queue,
`JobsRemaining()` returns 1 and `jobs_left` is 1, so `pendingCount()` does
not return 0, contradicting the claim and the source's own comment that "The
queue will be empty after this call". -/
theorem joinAll_false_leaves_queue_and_counter :
    Reachable 1 droppedJobState ∧
    droppedJobState.finished = true ∧
    droppedJobState.bailout = true ∧
    AllStopped droppedJobState ∧
    droppedJobState.executed = [] ∧
    droppedJobState.queue = [5] ∧
    jobsRemaining droppedJobState = 1 ∧
    droppedJobState.jobs_left = 1 :=
  ⟨reachable_dropped, by decide, by decide, by decide, by decide, by decide,
    by decide, by decide⟩

/-- C3: `JoinAll( true )` on a non-finalized pool performs, in this order,
the `WaitAll` drain, the `bailout = true` store, the `notify_all` broadcast,
the join loop, and the `finished = true` store (first conjunct, the
transcription of the body).  Moreover: the controller leaves the drain wait
only when `jobs_left ≤ 0` and without having touched `bailout` (second
conjunct); `bailout` is raised only from the controller point right after the
drain (third conjunct); `finished` is set only after every worker has
terminated and been joined (fourth conjunct). -/
theorem joinAll_drainFirst_order :
    joinAllEvents false true
      = [JEvent.waitAll, JEvent.raiseFlag, JEvent.broadcast,
         JEvent.joinThreads, JEvent.markFinalized] ∧
    (∀ s s' : PoolState, s.main = .waitingDrain true → Step s s' →
        s'.main = .preBailout → s.jobs_left ≤ 0 ∧ s'.bailout = s.bailout) ∧
    (∀ s s' : PoolState, Step s s' → s'.bailout = true →
        s.bailout = true ∨ s.main = .preBailout) ∧
    (∀ s s' : PoolState, Step s s' → s'.finished = true →
        s.finished = true ∨ (s.main = .joining ∧ AllStopped s)) := by
  refine ⟨rfl, ?_, ?_, ?_⟩
  · intro s s' hm hs hm'
    cases hs <;> simp_all [submitState, setWorker, fetchPopState, wakeInjectState,
      finishState, setMainPhase, setBailoutState, joinExitState]
  · intro s s' hs hb
    cases hs <;> simp_all [submitState, setWorker, fetchPopState, wakeInjectState,
      finishState, setMainPhase, setBailoutState, joinExitState]
  · intro s s' hs hf
    cases hs <;> simp_all [submitState, setWorker, fetchPopState, wakeInjectState,
      finishState, setMainPhase, setBailoutState, joinExitState]

/-- Witness for C3: the trace has the five events, and at the concrete
drained state the exit from the `WaitAll` of `JoinAll( true )` has counter
`≤ 0` and leaves `bailout` untouched. -/
theorem joinAll_drainFirst_order_witness :
    (joinAllEvents false true).length = 5 ∧
    drainingState.jobs_left ≤ 0 ∧
    (setMainPhase drainingState .preBailout).bailout = drainingState.bailout := by
  have h2 := joinAll_drainFirst_order.2.1 drainingState
    (setMainPhase drainingState .preBailout) rfl
    (Step.drainExit drainingState true rfl (by decide)) rfl
  exact ⟨by rw [joinAll_drainFirst_order.1]; rfl, h2.1, h2.2⟩

/-- C4: a worker that wakes from the parked state and observes the shutdown
flag with the queue empty increments `jobs_left` by exactly one and comes
back holding the synthetic no-op (source lines 85-88); the unconditional
decrement after running it (source line 57) then nets the counter change of
the iteration to zero, and the execution history is untouched. -/
theorem wakeInject_nets_zero :
    ∀ (s : PoolState) (i : Nat),
      s.workers.get? i = some .blocked → s.bailout = true → s.queue = [] →
      Step s (wakeInjectState s i) ∧
      (wakeInjectState s i).jobs_left = s.jobs_left + 1 ∧
      (wakeInjectState s i).workers.get? i = some (.holding none) ∧
      (wakeInjectState s i).queue = s.queue ∧
      Step (wakeInjectState s i) (finishState (wakeInjectState s i) i none) ∧
      (finishState (wakeInjectState s i) i none).jobs_left = s.jobs_left ∧
      (finishState (wakeInjectState s i) i none).executed = s.executed := by
  intro s i hw hb hq
  have hlt : i < s.workers.length := by
    rcases List.get?_eq_some.mp hw with ⟨h, _⟩
    exact h
  have hget : (s.workers.set i (.holding none)).get? i = some (.holding none) :=
    List.get?_set_eq_of_lt _ (by simpa using hlt)
  refine ⟨Step.wakeInject s i hw hb, rfl, hget, rfl, Step.finish _ i none hget, ?_, ?_⟩
  · show s.jobs_left + 1 - 1 = s.jobs_left
    omega
  · show s.executed ++ (none : Option Job).toList = s.executed
    simp

/-- Witness for C4 at the concrete mid-shutdown state `parkedBailoutState`. -/
theorem wakeInject_nets_zero_witness :
    Step parkedBailoutState (wakeInjectState parkedBailoutState 0) ∧
    (wakeInjectState parkedBailoutState 0).jobs_left = 1 ∧
    (finishState (wakeInjectState parkedBailoutState 0) 0 none).jobs_left = 0 := by
  obtain ⟨h1, h2, -, -, -, h6, -⟩ := wakeInject_nets_zero parkedBailoutState 0 rfl rfl rfl
  exact ⟨h1, by rw [h2]; decide, by rw [h6]; decide⟩

/-- C5: `AddJob` appends the job at the tail of the queue, increments
`jobs_left` by exactly one, changes nothing else, and is enabled in every
state (the call never blocks: the queue is unbounded and `AddJob` only takes
`queue_mutex` for an O(1) update); after it, the `notify_one` can wake any
parked worker, which then dequeues the head of the now non-empty queue. -/
theorem addJob_effects :
    ∀ (s : PoolState) (j : Job),
      Step s (submitState s j) ∧
      (submitState s j).queue = s.queue ++ [j] ∧
      (submitState s j).jobs_left = s.jobs_left + 1 ∧
      (submitState s j).bailout = s.bailout ∧
      (submitState s j).finished = s.finished ∧
      (submitState s j).workers = s.workers ∧
      (submitState s j).main = s.main ∧
      (submitState s j).executed = s.executed ∧
      (∀ i : Nat, s.workers.get? i = some .blocked → s.bailout = false →
        ∃ (j' : Job) (rest : List Job), (submitState s j).queue = j' :: rest ∧
          Step (submitState s j) (fetchPopState (submitState s j) i j' rest)) := by
  intro s j
  refine ⟨Step.submit s j, rfl, rfl, rfl, rfl, rfl, rfl, rfl, ?_⟩
  intro i hw hb
  cases hq : s.queue with
  | nil =>
    refine ⟨j, [], by simp [submitState, hq], ?_⟩
    exact Step.wakePop (submitState s j) i j [] hw hb (by simp [submitState, hq])
  | cons q qs =>
    refine ⟨q, qs ++ [j], by simp [submitState, hq], ?_⟩
    exact Step.wakePop (submitState s j) i q (qs ++ [j]) hw hb (by simp [submitState, hq])

/-- Witness for C5 at the concrete one-worker state whose worker is parked. -/
theorem addJob_effects_witness :
    Step blockedWorkerState (submitState blockedWorkerState 4) ∧
    (submitState blockedWorkerState 4).jobs_left = 1 ∧
    Step (submitState blockedWorkerState 4)
      (fetchPopState (submitState blockedWorkerState 4) 0 4 []) := by
  obtain ⟨h1, -, h3, -, -, -, -, -, h9⟩ := addJob_effects blockedWorkerState 4
  obtain ⟨j', rest, hq, hstep⟩ := h9 0 rfl rfl
  simp only [submitState, blockedWorkerState, setWorker, initState] at hq
  simp only [List.replicate, List.set, List.nil_append] at hq
  obtain ⟨rfl, rfl⟩ : 4 = j' ∧ [] = rest := by
    have := List.cons.injEq 4 ([] : List Job) j' rest ▸ hq
    simpa using hq
  exact ⟨h1, by rw [h3]; decide, hstep⟩

/-- C6: the Job Queue is FIFO.  `AddJob` appends at the tail; `next_job` pops
the head, so the job a worker dequeues from a non-empty queue is the
earliest-submitted job still waiting; and repeatedly popping a queue built by
a sequence of submissions hands the jobs out in submission order. -/
theorem queue_fifo :
    (∀ (s : PoolState) (j : Job), (submitState s j).queue = s.queue ++ [j]) ∧
    (∀ (s : PoolState) (i : Nat) (j : Job) (rest : List Job),
        s.workers.get? i = some .fetching → s.queue = j :: rest →
        s.queue.head? = some j ∧ (fetchPopState s i j rest).queue = rest ∧
          Step s (fetchPopState s i j rest)) ∧
    (∀ js : List Job, drainOrder (js.foldl addJobQueue []) = js) := by
  refine ⟨fun s j => rfl,
    fun s i j rest hw hq => ⟨by rw [hq]; rfl, rfl, Step.fetchPop s i j rest hw hq⟩, ?_⟩
  have hfold : ∀ (js q : List Job), js.foldl addJobQueue q = q ++ js := by
    intro js
    induction js with
    | nil => intro q; simp
    | cons a tl ih => intro q; simp [addJobQueue, ih]
  have hdrain : ∀ l : List Job, drainOrder l = l := by
    intro l
    induction l with
    | nil => rfl
    | cons a tl ih => simp [drainOrder, ih]
  intro js
  rw [hfold, hdrain]
  simp

/-- Witness for C6: the fetch at the concrete state dequeues the head, and a
three-job submission sequence drains in submission order. -/
theorem queue_fifo_witness :
    (submitState (initState 1) 3).queue = [3] ∧
    Step (setWorker (submitState (initState 1) 7) 0 .fetching)
      (fetchPopState (setWorker (submitState (initState 1) 7) 0 .fetching) 0 7 []) ∧
    drainOrder ([1, 2, 3].foldl addJobQueue []) = [1, 2, 3] := by
  refine ⟨by rw [queue_fifo.1 (initState 1) 3]; rfl, ?_, queue_fifo.2.2 [1, 2, 3]⟩
  exact (queue_fifo.2.1 (setWorker (submitState (initState 1) 7) 0 .fetching)
    0 7 [] rfl rfl).2.2

/-- C7: shutdown is idempotent.  A `JoinAll` call (either flag) on a pool
whose `finished` flag is set is a step from the state to itself: the whole
body is skipped, nothing is re-joined and nothing changes; and a completed
`JoinAll` always leaves `finished = true` with the controller back at
`running`, so a second `JoinAll( true )` is exactly that no-op. -/
theorem joinAll_idempotent :
    (∀ (s : PoolState) (waitForAll : Bool),
        s.main = .running → s.finished = true → Step s s) ∧
    (∀ s : PoolState, (joinExitState s).finished = true ∧
        (joinExitState s).main = .running) :=
  ⟨fun s w h1 h2 => Step.joinNoop s w h1 h2, fun s => ⟨rfl, rfl⟩⟩

/-- Witness for C7: on the concrete finalized pool, `JoinAll( true )` steps
the state to itself. -/
theorem joinAll_idempotent_witness :
    Step finalizedIdleState finalizedIdleState :=
  joinAll_idempotent.1 finalizedIdleState true rfl rfl

/-- C8: `jobs_left` is incremented by exactly one per submission and per
no-op injection, decremented by exactly one per completed iteration, and in
every reachable state it equals (queued-but-not-dequeued) +
(fetched-but-not-yet-decremented), hence is never negative; `JobsRemaining()`
returns an `unsigned` queue length, also never negative. -/
theorem pending_counter_accounting :
    (∀ (s : PoolState) (j : Job), (submitState s j).jobs_left = s.jobs_left + 1) ∧
    (∀ (s : PoolState) (i : Nat), (wakeInjectState s i).jobs_left = s.jobs_left + 1) ∧
    (∀ (s : PoolState) (i : Nat) (oj : Option Job),
        (finishState s i oj).jobs_left = s.jobs_left - 1) ∧
    (∀ (n : Nat) (s : PoolState), Reachable n s →
        s.jobs_left = (s.queue.length : Int) + (holdingCount s.workers : Int) ∧
          0 ≤ s.jobs_left ∧ 0 ≤ (jobsRemaining s : Int)) := by
  refine ⟨fun s j => rfl, fun s i => rfl, fun s i oj => rfl, fun n s h => ?_⟩
  have hinv := inv_reachable h
  refine ⟨hinv, ?_, ?_⟩
  · rw [hinv]
    omega
  · exact Int.natCast_nonneg _

/-- Witness for C8 at the freshly constructed two-worker pool. -/
theorem pending_counter_accounting_witness :
    0 ≤ (initState 2).jobs_left ∧
    (submitState (initState 2) 9).jobs_left = (initState 2).jobs_left + 1 := by
  refine ⟨(pending_counter_accounting.2.2.2 2 (initState 2)
    Relation.ReflTransGen.refl).2.1, pending_counter_accounting.1 (initState 2) 9⟩

/-- C9: `Size()` returns the worker count fixed at construction, in every
reachable state over the whole lifetime, and no step changes the worker
count. -/
theorem size_constant :
    (∀ (n : Nat) (s : PoolState), Reachable n s → poolSize s = n) ∧
    (∀ s s' : PoolState, Step s s' → poolSize s' = poolSize s) :=
  ⟨fun n s h => workers_length_reachable h, fun s s' hs => workers_length_step hs⟩

/-- Witness for C9: a three-worker pool reports size 3 at construction. -/
theorem size_constant_witness : poolSize (initState 3) = 3 :=
  size_constant.1 3 (initState 3) Relation.ReflTransGen.refl

/-- C10: `AddJob` called when `finished` is true is not rejected and raises
no error: it is still an enabled step that appends the job to the queue and
increments `jobs_left` exactly as before finalization. -/
theorem addJob_after_finalize :
    ∀ (s : PoolState) (j : Job), s.finished = true →
      Step s (submitState s j) ∧
      (submitState s j).queue = s.queue ++ [j] ∧
      (submitState s j).jobs_left = s.jobs_left + 1 ∧
      (submitState s j).finished = true := by
  intro s j hf
  exact ⟨Step.submit s j, rfl, rfl, hf⟩

/-- Witness for C10 at the concrete finalized pool. -/
theorem addJob_after_finalize_witness :
    Step finalizedIdleState (submitState finalizedIdleState 6) ∧
    (submitState finalizedIdleState 6).queue = finalizedIdleState.queue ++ [6] ∧
    (submitState finalizedIdleState 6).jobs_left = finalizedIdleState.jobs_left + 1 ∧
    (submitState finalizedIdleState 6).finished = true :=
  addJob_after_finalize finalizedIdleState 6 rfl

end ThreadPoolModel
